import Mathlib

/-!
Shallow embedding of the rule-based natural-language query translator in
src/app/nl_to_mongo.py (functions find_field, detect_cost_field,
detect_date_field, detect_status_field, parse_date_specifics, detect_count,
detect_top_n, detect_sum_request, detect_group_by, build_query).

Modelling conventions:
- Python strings are modelled as Lean String / List Char; the inputs of all
  claims are ASCII, so lowercasing, word characters and whitespace are
  modelled at the ASCII level.
- The regular-expression searches of the source are hand-compiled into
  deterministic scanners that implement the leftmost-match, greedy/lazy
  backtracking semantics of the Python re module for exactly the patterns
  appearing in the source.
- Python dicts (the Mongo filter and its per-field operator maps) are
  modelled as association lists with Python's insertion-order update
  semantics; keys stay unique.
- datetime.now(TZ) is an impure clock read inside the source; in the
  embedding its value is threaded as the explicit argument now, standing
  for the value returned by now_with_tz() during the call (the zoneinfo
  branch, Asia/Kolkata, a zone without DST, so wall-clock arithmetic on the
  components is exact).  datetime values are component records; Python's
  bounds (year 1..9999, timedelta at most 999999999 days) are modelled and
  their violation, like the uncaught ValueError of float(), is an
  Except.error result.
- Python float values appearing in filters are modelled as exact rationals;
  every numeric literal in the claims is integral, where the two models
  agree.
-/

namespace NLQ

/-! ### ASCII character helpers (Python str.lower, str.strip, re classes) -/

def toLowerAscii (c : Char) : Char :=
  if 'A' ≤ c ∧ c ≤ 'Z' then Char.ofNat (c.toNat + 32) else c

def isWs (c : Char) : Bool :=
  c = ' ' || c = '\t' || c = '\n' || c = '\r' || c = '\x0b' || c = '\x0c'

def isWordChar (c : Char) : Bool :=
  c.isAlphanum || c = '_'

def pyLower (s : String) : String := String.mk (s.data.map toLowerAscii)

def pyStripL (cs : List Char) : List Char :=
  ((cs.dropWhile isWs).reverse.dropWhile isWs).reverse

def pyStrip (s : String) : String := String.mk (pyStripL s.data)

/-- Contiguous-infix test on character lists. -/
def segIn : List Char → List Char → Bool
  | needle, [] => needle.isEmpty
  | needle, c :: rest => needle.isPrefixOf (c :: rest) || segIn needle rest

/-- Substring containment, Python's needle in haystack. -/
def strIn (needle haystack : String) : Bool :=
  segIn needle.data haystack.data

def natOfDigits (ds : List Char) : ℕ :=
  ds.foldl (fun n c => 10 * n + (c.toNat - '0'.toNat)) 0

/-! ### Python dict operations (insertion-ordered association lists) -/

/-- Python d[k] = v: replace in place when the key exists, else append. -/
def dictSet {α : Type} : List (String × α) → String → α → List (String × α)
  | [], k, v => [(k, v)]
  | (k', v') :: rest, k, v =>
    if k' = k then (k, v) :: rest else (k', v') :: dictSet rest k v

def dictLookup {α : Type} : List (String × α) → String → Option α
  | [], _ => none
  | (k', v) :: rest, k => if k' = k then some v else dictLookup rest k

/-! ### datetime model -/

structure DateTime where
  year : ℕ
  month : ℕ
  day : ℕ
  hour : ℕ
  minute : ℕ
  second : ℕ
  microsecond : ℕ
deriving DecidableEq, Repr

/-- Days since 1970-01-01 of a proleptic Gregorian civil date
(Howard Hinnant's days_from_civil, floor divisions). -/
def daysFromCivil (y m d : ℤ) : ℤ :=
  let y' := if m ≤ 2 then y - 1 else y
  let era := Int.fdiv y' 400
  let yoe := y' - era * 400
  let mp := Int.emod (m + 9) 12
  let doy := Int.fdiv (153 * mp + 2) 5 + d - 1
  let doe := yoe * 365 + Int.fdiv yoe 4 - Int.fdiv yoe 100 + doy
  era * 146097 + doe - 719468

/-- Inverse of daysFromCivil (civil_from_days). -/
def civilFromDays (z : ℤ) : ℤ × ℤ × ℤ :=
  let z' := z + 719468
  let era := Int.fdiv z' 146097
  let doe := z' - era * 146097
  let yoe :=
    Int.fdiv (doe - Int.fdiv doe 1460 + Int.fdiv doe 36524 - Int.fdiv doe 146096) 365
  let y := yoe + era * 400
  let doy := doe - (365 * yoe + Int.fdiv yoe 4 - Int.fdiv yoe 100)
  let mp := Int.fdiv (5 * doy + 2) 153
  let d := doy - Int.fdiv (153 * mp + 2) 5 + 1
  let m := mp + (if mp < 10 then 3 else -9)
  (if m ≤ 2 then y + 1 else y, m, d)

def minOrdinal : ℤ := daysFromCivil 1 1 1
def maxOrdinal : ℤ := daysFromCivil 9999 12 31

/-- Python weekday(): Monday = 0 .. Sunday = 6. -/
def weekdayOf (t : DateTime) : ℕ :=
  (Int.emod (daysFromCivil t.year t.month t.day + 3) 7).toNat

/-- datetime plus/minus a number of days; Except.error models the
OverflowError raised when the result leaves datetime.min..datetime.max. -/
def shiftDays (t : DateTime) (n : ℤ) : Except Unit DateTime :=
  let z := daysFromCivil t.year t.month t.day + n
  if z < minOrdinal || maxOrdinal < z then .error ()
  else
    let c := civilFromDays z
    .ok { t with year := c.1.toNat, month := c.2.1.toNat, day := c.2.2.toNat }

def isLeap (y : ℕ) : Bool := y % 4 = 0 && (y % 100 ≠ 0 || y % 400 = 0)

def daysInMonth (y m : ℕ) : ℕ :=
  if m = 2 then (if isLeap y then 29 else 28)
  else if m = 4 || m = 6 || m = 9 || m = 11 then 30
  else 31

/-! ### Mongo value / filter / query model -/

inductive MVal where
  | num (q : ℚ)
  | str (s : String)
  | dt (t : DateTime)
  | strs (l : List String)
deriving DecidableEq, Repr

/-- A per-field predicate: a Mongo operator dict such as the pair
$gte/$lt of a time range, $regex/$options, $in, or $gt/$lt/.../$eq. -/
abbrev Pred := List (String × MVal)

/-- The Mongo filter dict: resolved field name to predicate dict. -/
abbrev Filter := List (String × Pred)

/-- Python filt.setdefault(col, {}) followed by filt[col][opk] = v. -/
def dictSetDefault : Filter → String → String → MVal → Filter
  | [], k, opk, v => [(k, [(opk, v)])]
  | (k', p) :: rest, k, opk, v =>
    if k' = k then (k, dictSet p opk v) :: rest
    else (k', p) :: dictSetDefault rest k opk v

/-- Aggregation pipeline stages; each constructor is the shape of one
concrete stage dict built in build_query, with its varying parts as
parameters.  sgroupSum cf is the $group of the sum branch (_id None,
total = $sum of $convert(cf, double, onError 0, onNull 0)); sgroupCost is
the $group of the group_cost branch (count, total_cost, avg_cost with the
same $convert); saddCostNum is the $addFields of __cost_num. -/
inductive Stage where
  | smatch (f : Filter)
  | sgroupSum (costField : String)
  | sgroupCost (groupField costField : String)
  | ssort (field : String) (dir : ℤ)
  | saddCostNum (costField : String)
  | slimit (n : ℕ)
  | sprojExclude (field : String)
deriving DecidableEq, Repr

def stageIsMatch : Stage → Bool
  | .smatch _ => true
  | _ => false

structure Agg where
  type : String
  pipeline : List Stage
deriving DecidableEq, Repr

/-- The dict returned by build_query. -/
structure Query where
  filter : Filter
  limit : ℕ
  is_count : Bool
  agg : Option Agg
deriving DecidableEq, Repr

/-! ### Keyword tables (module-level constants of the source) -/

def MONTH_KEYWORDS : List String := ["this month", "current month"]
def YEAR_KEYWORDS : List String := ["this year", "current year"]
def WEEK_KEYWORDS : List String := ["this week", "current week"]

def COST_KEYWORDS : List String :=
  ["discount", "discounted cost", "published cost", "published",
   "marked up", "marked", "cost", "amount", "charge", "price", "freight"]

def DATE_FIELD_HINTS : List String :=
  ["ship date", "ship", "created", "date", "delivered", "etd"]

def STATUS_FIELD_HINTS : List String :=
  ["status", "delivery status", "shipment type"]

def STATUS_WORDS : List String :=
  ["delivered", "pending", "in transit", "cancelled", "returned", "booked", "shipped"]

/-! ### Field resolution -/

/-- find_field: first column whose lowercase name contains any keyword,
keywords in priority order. -/
def find_field (columns : List String) (keywords : List String) : Option String :=
  keywords.findSome? fun kw =>
    columns.find? fun c => strIn (pyLower kw) (pyLower c)

def detect_cost_field (columns : List String) : Option String :=
  match COST_KEYWORDS.findSome? (fun kw => find_field columns [kw]) with
  | some f => some f
  | none =>
    columns.find? fun c =>
      let lc := pyLower c
      strIn "cost" lc || strIn "amount" lc || strIn "charge" lc || strIn "price" lc

def detect_date_field (columns : List String) : Option String :=
  find_field columns DATE_FIELD_HINTS

def detect_status_field (columns : List String) : Option String :=
  find_field columns STATUS_FIELD_HINTS

/-- Python truthiness of an optional string: None and the empty string are
falsy (the source tests overrides and resolved fields with plain if). -/
def truthy : Option String → Option String
  | some "" => none
  | none => none
  | some s => some s

/-- Python a or b on optional/possibly-empty strings. -/
def pyOrS (a b : Option String) : Option String :=
  match truthy a with
  | some x => some x
  | none => b

/-! ### Hand-compiled scanners for the re patterns of the source -/

/-- Case-insensitive literal match at the head of rest; lit is given
lowercase. -/
def litCIFrom : List Char → List Char → Bool
  | [], _ => true
  | _ :: _, [] => false
  | l :: ls, c :: cs => toLowerAscii c = l && litCIFrom ls cs

/-- Length of the maximal run of characters satisfying p at the head. -/
def runLen (p : Char → Bool) (cs : List Char) : ℕ := (cs.takeWhile p).length

/-- True when the character at index i is absent or not a word character
(the two sides of a regex word boundary). -/
def nonWordAt (cs : List Char) (i : ℕ) : Bool :=
  match (cs.drop i).head? with
  | some ch => !(isWordChar ch)
  | none => true

def boundaryBefore (cs : List Char) (i : ℕ) : Bool :=
  i == 0 || nonWordAt cs (i - 1)

/-- Whole-word occurrence of w at index i (w starts and ends with word
characters, as every alternative in the source does). -/
def wordAt (cs : List Char) (i : ℕ) (w : List Char) : Bool :=
  w.isPrefixOf (cs.drop i) && boundaryBefore cs i && nonWordAt cs (i + w.length)

/-- re.search existence of a whole-word alternative. -/
def containsWord (cs : List Char) (w : List Char) : Bool :=
  (List.range (cs.length + 1)).any fun i => wordAt cs i w

/-- The regex dollar anchor: end of string or just before a final
newline. -/
def dollarAt (cs : List Char) (e : ℕ) : Bool :=
  e == cs.length || (e + 1 == cs.length && (cs.drop e).head? == some '\n')

/-! #### between YYYY-MM-DD and YYYY-MM-DD -/

def ymdAt (cs : List Char) (i : ℕ) : Option (ℕ × ℕ × ℕ) :=
  match cs.drop i with
  | a :: b :: c :: d :: '-' :: e :: f :: '-' :: g :: h :: _ =>
    if (([a, b, c, d, e, f, g, h] : List Char).all Char.isDigit) then
      some (natOfDigits [a, b, c, d], natOfDigits [e, f], natOfDigits [g, h])
    else none
  | _ => none

def betweenAt (cs : List Char) (i : ℕ) : Option ((ℕ × ℕ × ℕ) × (ℕ × ℕ × ℕ)) :=
  if litCIFrom "between".data (cs.drop i) then
    let j := i + 7
    let w1 := runLen isWs (cs.drop j)
    if w1 = 0 then none
    else
      match ymdAt cs (j + w1) with
      | none => none
      | some d1 =>
        let k := j + w1 + 10
        let w2 := runLen isWs (cs.drop k)
        if w2 = 0 then none
        else if litCIFrom "and".data (cs.drop (k + w2)) then
          let l := k + w2 + 3
          let w3 := runLen isWs (cs.drop l)
          if w3 = 0 then none
          else
            match ymdAt cs (l + w3) with
            | none => none
            | some d2 => some (d1, d2)
        else none
  else none

def findBetween (cs : List Char) : Option ((ℕ × ℕ × ℕ) × (ℕ × ℕ × ℕ)) :=
  (List.range (cs.length + 1)).findSome? (betweenAt cs)

/-- dateutil.parser.parse on a captured YYYY-MM-DD string: a concrete
midnight datetime when the components form a real calendar date, none
when the ValueError path of the source's try/except is taken. -/
def parseYMD : ℕ × ℕ × ℕ → Option DateTime
  | (y, m, d) =>
    if 1 ≤ y ∧ y ≤ 9999 ∧ 1 ≤ m ∧ m ≤ 12 ∧ 1 ≤ d ∧ d ≤ daysInMonth y m then
      some ⟨y, m, d, 0, 0, 0, 0⟩
    else none

/-! #### last N days -/

def lastNDaysAt (cs : List Char) (i : ℕ) : Option ℕ :=
  if litCIFrom "last".data (cs.drop i) then
    let j := i + 4
    let w1 := runLen isWs (cs.drop j)
    if w1 = 0 then none
    else
      let ds := (cs.drop (j + w1)).takeWhile Char.isDigit
      if ds.length = 0 then none
      else
        let k := j + w1 + ds.length
        let w2 := runLen isWs (cs.drop k)
        if w2 = 0 then none
        else if litCIFrom "day".data (cs.drop (k + w2)) then some (natOfDigits ds)
        else none
  else none

/-- LAST_N_DAYS_RE.search: leftmost match of last\s+(\d+)\s+days?. -/
def lastNDays (cs : List Char) : Option ℕ :=
  (List.range (cs.length + 1)).findSome? (lastNDaysAt cs)

/-- Existence of the special-cased last-7 phrasings (both regexes of the
source's final temporal branch reduce to this occurrence test). -/
def last7At (cs : List Char) (i : ℕ) : Bool :=
  if litCIFrom "last".data (cs.drop i) then
    let j := i + 4
    let w1 := runLen isWs (cs.drop j)
    if w1 = 0 then false
    else if (cs.drop (j + w1)).head? == some '7' then
      let k := j + w1 + 1
      let w2 := runLen isWs (cs.drop k)
      w2 ≠ 0 && litCIFrom "day".data (cs.drop (k + w2))
    else false
  else false

def last7Phrase (cs : List Char) : Bool :=
  (List.range (cs.length + 1)).any (last7At cs)

/-! ### parse_date_specifics -/

/-- date_override or detect_date_field(columns), then the truthiness test
of if not date_field. -/
def resolvedDateField (date_override : Option String) (columns : List String) :
    Option String :=
  truthy (pyOrS date_override (detect_date_field columns))

/-- The relative-date branches of parse_date_specifics, tried in source
order after the explicit between rule did not return: this/current month,
this/current year, this/current week, last N days, literal last 7 days.
Except.error models the ValueError/OverflowError of replace and timedelta
arithmetic outside datetime's bounds. -/
def relativeDateFilter (nl : String) (nl_low : String) (date_field : String)
    (now : DateTime) : Except Unit Filter :=
  if MONTH_KEYWORDS.any (fun k => strIn k nl_low) then
    let start : DateTime :=
      { now with day := 1, hour := 0, minute := 0, second := 0, microsecond := 0 }
    if start.month = 12 then
      if start.year + 1 > 9999 then .error ()
      else
        .ok [(date_field,
              [("$gte", .dt start),
               ("$lt", .dt { start with year := start.year + 1, month := 1 })])]
    else
      .ok [(date_field,
            [("$gte", .dt start),
             ("$lt", .dt { start with month := start.month + 1 })])]
  else if YEAR_KEYWORDS.any (fun k => strIn k nl_low) then
    let start : DateTime :=
      { now with month := 1, day := 1, hour := 0, minute := 0, second := 0,
                 microsecond := 0 }
    if start.year + 1 > 9999 then .error ()
    else
      .ok [(date_field,
            [("$gte", .dt start), ("$lt", .dt { start with year := start.year + 1 })])]
  else if WEEK_KEYWORDS.any (fun k => strIn k nl_low) then
    match shiftDays now (-(weekdayOf now : ℤ)) with
    | .error e => .error e
    | .ok m =>
      let monday : DateTime :=
        { m with hour := 0, minute := 0, second := 0, microsecond := 0 }
      match shiftDays monday 7 with
      | .error e => .error e
      | .ok nextMonday =>
        .ok [(date_field, [("$gte", .dt monday), ("$lt", .dt nextMonday)])]
  else
    match lastNDays nl.data with
    | some n =>
      if n > 999999999 then .error ()
      else
        match shiftDays now (-(n : ℤ)) with
        | .error e => .error e
        | .ok s =>
          .ok [(date_field,
                [("$gte", .dt { s with hour := 0, minute := 0, second := 0,
                                       microsecond := 0 }),
                 ("$lt", .dt now)])]
    | none =>
      if last7Phrase nl.data then
        match shiftDays now (-7) with
        | .error e => .error e
        | .ok s =>
          .ok [(date_field,
                [("$gte", .dt { s with hour := 0, minute := 0, second := 0,
                                       microsecond := 0 }),
                 ("$lt", .dt now)])]
      else .ok []

/-- parse_date_specifics: the explicit between rule first; when its
dates fail dateutil parsing the except/pass of the source falls through
to the relative branches. -/
def parse_date_specifics (nl : String) (columns : List String)
    (date_override : Option String) (now : DateTime) : Except Unit Filter :=
  let nl_low := pyLower nl
  match resolvedDateField date_override columns with
  | none => .ok []
  | some date_field =>
    match findBetween nl.data with
    | some (d1, d2) =>
      match parseYMD d1, parseYMD d2 with
      | some a, some b =>
        .ok [(date_field, [("$gte", .dt a), ("$lte", .dt b)])]
      | _, _ => relativeDateFilter nl nl_low date_field now
    | none => relativeDateFilter nl nl_low date_field now

/-! ### Intent detectors -/

def detect_count (nl : String) : Bool :=
  let l := (pyLower nl).data
  containsWord l "how many".data || containsWord l "count".data ||
    containsWord l "number of".data

def detect_sum_request (nl : String) : Bool :=
  let l := (pyLower nl).data
  containsWord l "total".data || containsWord l "sum".data ||
    containsWord l "total cost".data || containsWord l "total amount".data

/-- top\s+(\d+): no word boundary, leftmost occurrence. -/
def topAt (cs : List Char) (i : ℕ) : Option ℕ :=
  if litCIFrom "top".data (cs.drop i) then
    let j := i + 3
    let w := runLen isWs (cs.drop j)
    if w = 0 then none
    else
      let ds := (cs.drop (j + w)).takeWhile Char.isDigit
      if ds.length = 0 then none else some (natOfDigits ds)
  else none

def detect_top_n (nl : String) : Option ℕ :=
  (List.range (nl.data.length + 1)).findSome? (topAt nl.data)

/-- Character class [a-z0-9 _-] with IGNORECASE. -/
def gbClass (c : Char) : Bool :=
  c.isAlpha || c.isDigit || c = ' ' || c = '_' || c = '-'

/-- The tail by\s+([a-z0-9 _-]+) starting at index p (just after group or
grouped): literal space, by, then greedy whitespace followed by a greedy
nonempty class run, backtracking the whitespace count downward. -/
def groupByTail (cs : List Char) (p : ℕ) : Option (List Char) :=
  if litCIFrom " by".data (cs.drop p) then
    let q := p + 3
    let w := runLen isWs (cs.drop q)
    if w = 0 then none
    else
      (List.range w).findSome? fun dk =>
        let r := q + (w - dk)
        let len := runLen gbClass (cs.drop r)
        if len = 0 then none else some ((cs.drop r).take len)
  else none

def groupByAt (cs : List Char) (i : ℕ) : Option (List Char) :=
  if litCIFrom "group".data (cs.drop i) then
    match (if litCIFrom "ed".data (cs.drop (i + 5)) then groupByTail cs (i + 7)
           else none) with
    | some cap => some cap
    | none => groupByTail cs (i + 5)
  else none

def detect_group_by (nl : String) : Option String :=
  match (List.range (nl.data.length + 1)).findSome? (groupByAt nl.data) with
  | some cap => some (String.mk (pyStripL cap))
  | none =>
    let l := pyLower nl
    if strIn "by status" l || strIn "group by status" l ||
        strIn "grouped by status" l then
      some "status"
    else none

/-! ### Origin/destination extraction -/

/-- Character class [A-Za-z0-9\-\s,]. -/
def locClass (c : Char) : Bool :=
  c.isAlpha || c.isDigit || c = '-' || isWs c || c = ','

/-- The tail alternative \s+kw\b at index e. -/
def tailKeywordAt (cs : List Char) (e : ℕ) (kw : List Char) : Bool :=
  let w := runLen isWs (cs.drop e)
  w ≠ 0 && litCIFrom kw (cs.drop (e + w)) && nonWordAt cs (e + w + kw.length)

/-- \s+ then a lazy nonempty [A-Za-z0-9\-\s,]+? capture closed by
(?:\s+kw\b|$): whitespace count greedy (backtracking downward), capture
length lazy (growing upward). -/
def lazyCaptureAt (cs : List Char) (j : ℕ) (kw : List Char) : Option (List Char) :=
  let w := runLen isWs (cs.drop j)
  if w = 0 then none
  else
    (List.range w).findSome? fun dk =>
      let p := j + (w - dk)
      let maxL := runLen locClass (cs.drop p)
      (List.range maxL).findSome? fun l0 =>
        let e := p + l0 + 1
        if tailKeywordAt cs e kw || dollarAt cs e then
          some ((cs.drop p).take (l0 + 1))
        else none

def fromCaptureAt (cs : List Char) (i : ℕ) : Option (List Char) :=
  if boundaryBefore cs i && litCIFrom "from".data (cs.drop i) then
    lazyCaptureAt cs (i + 4) "to".data
  else none

def m_from (cs : List Char) : Option (List Char) :=
  (List.range (cs.length + 1)).findSome? (fromCaptureAt cs)

def toCaptureAt (cs : List Char) (i : ℕ) : Option (List Char) :=
  if boundaryBefore cs i && litCIFrom "to".data (cs.drop i) then
    lazyCaptureAt cs (i + 2) "with".data
  else none

def m_to (cs : List Char) : Option (List Char) :=
  (List.range (cs.length + 1)).findSome? (toCaptureAt cs)

/-! ### Numeric comparison extraction -/

/-- Character class [A-Za-z _#\-] of the field-phrase capture. -/
def cmpClass (c : Char) : Bool :=
  c.isAlpha || c = ' ' || c = '_' || c = '#' || c = '-'

def numClass (c : Char) : Bool :=
  c.isDigit || c = ',' || c = '.'

/-- Operator alternation >=|<=|>|<|= in source order. -/
def opAt (cs : List Char) (i : ℕ) : Option (String × ℕ) :=
  match cs.drop i with
  | '>' :: '=' :: _ => some (">=", 2)
  | '<' :: '=' :: _ => some ("<=", 2)
  | '>' :: _ => some (">", 1)
  | '<' :: _ => some ("<", 1)
  | '=' :: _ => some ("=", 1)
  | _ => none

structure Cmp where
  field : List Char
  op : String
  num : List Char
deriving DecidableEq, Repr

/-- One attempt of ([A-Za-z _#\-]{2,40})\s*(>=|<=|>|<|=)\s*([0-9,\.]+) at
index i; the field capture is greedy from min(40, run) down to 2; returns
the groups and the position after the match. -/
def cmpMatchAt (cs : List Char) (i : ℕ) : Option (Cmp × ℕ) :=
  let r := runLen cmpClass (cs.drop i)
  if r < 2 then none
  else
    let m := min 40 r
    (List.range (m - 1)).findSome? fun dk =>
      let len := m - dk
      let a := i + len
      let w := runLen isWs (cs.drop a)
      match opAt cs (a + w) with
      | none => none
      | some (op, opLen) =>
        let b := a + w + opLen
        let w2 := runLen isWs (cs.drop b)
        let ns := b + w2
        let ds := (cs.drop ns).takeWhile numClass
        if ds.length = 0 then none
        else some (⟨(cs.drop i).take len, op, ds⟩, ns + ds.length)

/-- re.finditer: leftmost non-overlapping matches, resuming at each match
end. -/
def findCmpsGo (cs : List Char) : ℕ → ℕ → List Cmp
  | 0, _ => []
  | fuel + 1, i =>
    if cs.length ≤ i then []
    else
      match cmpMatchAt cs i with
      | some (c, e) => c :: findCmpsGo cs fuel e
      | none => findCmpsGo cs fuel (i + 1)

def findCmps (cs : List Char) : List Cmp :=
  findCmpsGo cs (cs.length + 1) 0

def stripCommas (cs : List Char) : List Char := cs.filter (fun c => c ≠ ',')

/-- float(num.replace(",", "")): the captured group is digits, commas and
dots; after comma removal it parses iff it has at least one digit and at
most one dot, else the source raises ValueError. -/
def parseFloat (cs : List Char) : Option ℚ :=
  let dots := (cs.filter (fun c => c = '.')).length
  let digits := cs.filter Char.isDigit
  if dots ≤ 1 ∧ 1 ≤ digits.length then
    let intPart := cs.takeWhile (fun c => c ≠ '.')
    let fracPart := (cs.dropWhile (fun c => c ≠ '.')).drop 1
    some (mkRat (natOfDigits (intPart ++ fracPart)) (10 ^ fracPart.length))
  else none

def opKeyOf (op : String) : String :=
  if op = "=" then "$eq"
  else if op = ">" then "$gt"
  else if op = "<" then "$lt"
  else if op = ">=" then "$gte"
  else "$lte"

/-! ### Filter assembly (the first half of build_query) -/

/-- The from-location step: on a match, resolve an origin-like field and
set a case-insensitive regex predicate with the stripped capture. -/
def applyFrom (nl : String) (columns : List String) (f : Filter) : Filter :=
  match m_from nl.data with
  | some cap =>
    match truthy (find_field columns ["origin", "from", "location"]) with
    | some fld =>
      dictSet f fld
        [("$regex", .str (String.mk (pyStripL cap))), ("$options", .str "i")]
    | none => f
  | none => f

def applyTo (nl : String) (columns : List String) (f : Filter) : Filter :=
  match m_to nl.data with
  | some cap =>
    match truthy (find_field columns ["destination", "to", "to company", "to id"]) with
    | some fld =>
      dictSet f fld
        [("$regex", .str (String.mk (pyStripL cap))), ("$options", .str "i")]
    | none => f
  | none => f

/-- The status step: collect every whole-word status vocabulary match; on
any, resolve the status field and set an $in predicate. -/
def applyStatus (nl : String) (columns : List String) (f : Filter) : Filter :=
  let l := (pyLower nl).data
  let statuses := STATUS_WORDS.filter (fun s => containsWord l s.data)
  if statuses.isEmpty then f
  else
    match truthy (detect_status_field columns) with
    | some sf => dictSet f sf [("$in", .strs statuses)]
    | none => f

/-- col = find_field(columns, [ft.strip()]) or (cost_override or
detect_cost_field(columns)), then the truthiness of if col. -/
def cmpCol (columns : List String) (cost_override : Option String)
    (ft : List Char) : Option String :=
  truthy (pyOrS (find_field columns [String.mk (pyStripL ft)])
    (pyOrS cost_override (detect_cost_field columns)))

/-- One numeric comparison: an unresolvable column drops it silently; a
resolvable column with an unparseable value is the uncaught ValueError of
float(). -/
def applyCmp1 (columns : List String) (cost_override : Option String)
    (f : Filter) (m : Cmp) : Except Unit Filter :=
  match cmpCol columns cost_override m.field with
  | some col =>
    match parseFloat (stripCommas m.num) with
    | some v => .ok (dictSetDefault f col (opKeyOf m.op) (.num v))
    | none => .error ()
  | none => .ok f

def applyCmps (nl : String) (columns : List String)
    (cost_override : Option String) (f : Filter) : Except Unit Filter :=
  (findCmps nl.data).foldlM (applyCmp1 columns cost_override) f

/-- A comparison match is harmless exactly when it cannot reach a failing
float() call: either its field does not resolve or its value parses. -/
def cmpOk (columns : List String) (c : Option String) (m : Cmp) : Bool :=
  match cmpCol columns c m.field with
  | some _ => (parseFloat (stripCommas m.num)).isSome
  | none => true

/-- The filter assembled by build_query before intent classification:
date filter, then from/to locations, then statuses, then numeric
comparisons, in source order. -/
def assembleFilter (nl : String) (columns : List String)
    (date_override cost_override : Option String) (now : DateTime) :
    Except Unit Filter :=
  match parse_date_specifics nl columns date_override now with
  | .error e => .error e
  | .ok dateF =>
    applyCmps nl columns cost_override
      (applyStatus nl columns (applyTo nl columns (applyFrom nl columns dateF)))

/-! ### Intent classification and aggregation assembly -/

/-- cost_override or detect_cost_field(columns), then truthiness. -/
def costField (columns : List String) (cost_override : Option String) :
    Option String :=
  truthy (pyOrS cost_override (detect_cost_field columns))

/-- group_field of the group branch: the status special case tries the
status field first, then a direct column lookup with the captured phrase;
followed by the truthiness of if group_field. -/
def groupFieldFor (columns : List String) (gb : String) : Option String :=
  if (["status", "delivery status", "shipment status"] : List String).contains
      (pyLower gb) then
    truthy (pyOrS (detect_status_field columns) (find_field columns [gb]))
  else truthy (find_field columns [gb])

def sumPipeline (filt : Filter) (cf : String) : List Stage :=
  [.smatch filt, .sgroupSum cf]

def groupPipeline (filt : Filter) (gf cf : String) : List Stage :=
  [.smatch filt, .sgroupCost gf cf, .ssort "total_cost" (-1)]

/-- The top branch appends $match only when the filter dict is truthy
(nonempty). -/
def topPipeline (filt : Filter) (cf : String) (n : ℕ) : List Stage :=
  (if filt.isEmpty then [] else [Stage.smatch filt]) ++
    [.saddCostNum cf, .ssort "__cost_num" (-1), .slimit n, .sprojExclude "__cost_num"]

/-- The sum branch: a whole-word sum signal and a truthy cost field. -/
def sumAgg (nl : String) (columns : List String) (cost_override : Option String)
    (filt : Filter) : Option Agg :=
  if detect_sum_request nl then
    match costField columns cost_override with
    | some cf => some ⟨"sum", sumPipeline filt cf⟩
    | none => none
  else none

/-- The group-by branch: a captured grouping phrase plus truthy group and
cost fields. -/
def grpAgg (nl : String) (columns : List String) (cost_override : Option String)
    (filt : Filter) : Option Agg :=
  match detect_group_by nl with
  | some gb =>
    match groupFieldFor columns gb, costField columns cost_override with
    | some gf, some cf => some ⟨"group_cost", groupPipeline filt gf cf⟩
    | _, _ => none
  | none => none

/-- The top-N branch: a truthy captured N and a truthy cost field. -/
def topAgg (nl : String) (columns : List String) (cost_override : Option String)
    (filt : Filter) : Option Agg :=
  match detect_top_n nl with
  | some n =>
    if n = 0 then none
    else
      match costField columns cost_override with
      | some cf => some ⟨"top", topPipeline filt cf n⟩
      | none => none
  | none => none

/-- The aggregation hint of the non-count branches of build_query: sum,
then group-by, then top-N, each falling through to the next when its
requirements are not met. -/
def aggOf (nl : String) (columns : List String) (cost_override : Option String)
    (filt : Filter) : Option Agg :=
  match sumAgg nl columns cost_override filt with
  | some a => some a
  | none =>
    match grpAgg nl columns cost_override filt with
    | some a => some a
    | none => topAgg nl columns cost_override filt

/-- The second half of build_query: the count check short-circuits with no
aggregation; every branch returns the same filter, the fixed limit 100,
and is_count true exactly on the count branch. -/
def chooseIntent (nl : String) (columns : List String)
    (cost_override : Option String) (filt : Filter) : Query :=
  if detect_count nl then
    { filter := filt, limit := 100, is_count := true, agg := none }
  else
    { filter := filt, limit := 100, is_count := false,
      agg := aggOf nl columns cost_override filt }

/-- build_query(nl_text, columns, date_override, cost_override) with the
value of the internal now_with_tz() clock read threaded as now. -/
def build_query (nl_text : String) (columns : List String)
    (date_override cost_override : Option String) (now : DateTime) :
    Except Unit Query :=
  let nl := pyStrip nl_text
  match assembleFilter nl columns date_override cost_override now with
  | .error e => .error e
  | .ok filt => .ok (chooseIntent nl columns cost_override filt)

/-- Whether an Except result is a normal return (no exception raised). -/
def okB {α : Type} : Except Unit α → Bool
  | .ok _ => true
  | .error _ => false

instance {ε α : Type} [DecidableEq ε] [DecidableEq α] : DecidableEq (Except ε α)
  | .error a, .error b =>
    if h : a = b then isTrue (by rw [h])
    else isFalse (by intro hh; cases hh; exact h rfl)
  | .error _, .ok _ => isFalse (by intro h; cases h)
  | .ok _, .error _ => isFalse (by intro h; cases h)
  | .ok a, .ok b =>
    if h : a = b then isTrue (by rw [h])
    else isFalse (by intro hh; cases hh; exact h rfl)

/-- A fixed concrete clock value used by concrete evaluations:
2024-03-15 10:00 Asia/Kolkata, the anchor named by the spec. -/
def now2024 : DateTime := ⟨2024, 3, 15, 10, 0, 0, 0⟩

/-! ### Theorems -/

/-- Claim C8: the text "cost > 100 cost < 500" on columns ["Cost (USD)"]
yields a default query whose filter binds "Cost (USD)" to the single
merged comparison map with $gt 100 and $lt 500. -/
theorem cmp_merge_concrete :
    build_query "cost > 100 cost < 500" ["Cost (USD)"] none none now2024 =
      .ok { filter := [("Cost (USD)", [("$gt", .num 100), ("$lt", .num 500)])],
            limit := 100, is_count := false, agg := none } := by
  decide

/-- Claim C9: with now = 2024-03-15 10:00 (Asia/Kolkata) and a resolvable
date column, "this month" resolves to the half-open range
[2024-03-01 00:00, 2024-04-01 00:00) and "last 7 days" to
[2024-03-08 00:00, 2024-03-15 10:00) on the resolved date field. -/
theorem temporal_windows_concrete :
    parse_date_specifics "this month" ["Ship Date"] none now2024 =
      .ok [("Ship Date",
            [("$gte", .dt ⟨2024, 3, 1, 0, 0, 0, 0⟩),
             ("$lt", .dt ⟨2024, 4, 1, 0, 0, 0, 0⟩)])] ∧
    parse_date_specifics "last 7 days" ["Ship Date"] none now2024 =
      .ok [("Ship Date",
            [("$gte", .dt ⟨2024, 3, 8, 0, 0, 0, 0⟩),
             ("$lt", .dt ⟨2024, 3, 15, 10, 0, 0, 0⟩)])] := by
  exact ⟨by decide, by decide⟩

/-- Claim C2 counterexample: the text contains an explicit between range
whose dates match the pattern but fail to parse (month 13), yet
parse_date_specifics does not yield the empty temporal filter: the
except/pass of the source falls through and the later this-month rule
fires. -/
theorem between_fallback_cex :
    findBetween "between 2024-13-01 and 2024-13-02 this month".data =
        some ((2024, 13, 1), (2024, 13, 2)) ∧
    parseYMD (2024, 13, 1) = none ∧
    parse_date_specifics "between 2024-13-01 and 2024-13-02 this month"
        ["Ship Date"] none now2024 =
      .ok [("Ship Date",
            [("$gte", .dt ⟨2024, 3, 1, 0, 0, 0, 0⟩),
             ("$lt", .dt ⟨2024, 4, 1, 0, 0, 0, 0⟩)])] := by
  refine ⟨by decide, by decide, by decide⟩

/-- Claim C3 counterexample: a numeric comparison whose field resolves but
whose captured value 1.2.3 is not a valid float makes build_query raise
(the float() call of the source has no try/except), rather than dropping
the comparison. -/
theorem build_query_raise_cex :
    build_query "cost > 1.2.3" ["Cost"] none none now2024 = .error () := by
  decide

/-- Claim C4 counterexample: a TopN request with an empty assembled filter
produces an aggregation pipeline with no match stage at all; its first
stage is the $addFields of the numeric sort helper. -/
theorem topn_empty_filter_cex :
    build_query "top 5" ["Published Cost"] none none now2024 =
      .ok { filter := [], limit := 100, is_count := false,
            agg := some ⟨"top",
              [.saddCostNum "Published Cost", .ssort "__cost_num" (-1),
               .slimit 5, .sprojExclude "__cost_num"]⟩ } := by
  decide

/-! Helper lemmas shared by the claim theorems. -/

theorem chooseIntent_filter (nl : String) (columns : List String)
    (c : Option String) (f : Filter) : (chooseIntent nl columns c f).filter = f := by
  unfold chooseIntent
  split <;> rfl

theorem chooseIntent_limit (nl : String) (columns : List String)
    (c : Option String) (f : Filter) : (chooseIntent nl columns c f).limit = 100 := by
  unfold chooseIntent
  split <;> rfl

theorem build_query_ok_elim (nl : String) (columns : List String)
    (d c : Option String) (now : DateTime) (q : Query)
    (h : build_query nl columns d c now = .ok q) :
    ∃ f, assembleFilter (pyStrip nl) columns d c now = .ok f ∧
      q = chooseIntent (pyStrip nl) columns c f := by
  simp only [build_query] at h
  cases hA : assembleFilter (pyStrip nl) columns d c now with
  | error e => rw [hA] at h; cases h
  | ok f =>
    rw [hA] at h
    exact ⟨f, rfl, (by injection h with h; exact h.symm)⟩

theorem sumAgg_none_of_no_cost (nl : String) (columns : List String)
    (c : Option String) (filt : Filter) (h : costField columns c = none) :
    sumAgg nl columns c filt = none := by
  unfold sumAgg
  rw [h]
  split <;> rfl

theorem grpAgg_none_of_no_cost (nl : String) (columns : List String)
    (c : Option String) (filt : Filter) (h : costField columns c = none) :
    grpAgg nl columns c filt = none := by
  unfold grpAgg
  rw [h]
  cases detect_group_by nl with
  | none => rfl
  | some gb =>
    dsimp only
    cases groupFieldFor columns gb <;> rfl

theorem topAgg_none_of_no_cost (nl : String) (columns : List String)
    (c : Option String) (filt : Filter) (h : costField columns c = none) :
    topAgg nl columns c filt = none := by
  unfold topAgg
  rw [h]
  cases detect_top_n nl with
  | none => rfl
  | some n => dsimp only; exact ite_self _

theorem aggOf_none_of_no_cost (nl : String) (columns : List String)
    (c : Option String) (filt : Filter) (h : costField columns c = none) :
    aggOf nl columns c filt = none := by
  unfold aggOf
  rw [sumAgg_none_of_no_cost nl columns c filt h,
      grpAgg_none_of_no_cost nl columns c filt h,
      topAgg_none_of_no_cost nl columns c filt h]

theorem sumAgg_shape (nl : String) (columns : List String) (c : Option String)
    (filt : Filter) (a : Agg) (h : sumAgg nl columns c filt = some a) :
    ∃ cf, a = ⟨"sum", sumPipeline filt cf⟩ := by
  unfold sumAgg at h
  split at h
  · cases hcf : costField columns c <;> rw [hcf] at h
    · exact Option.noConfusion h
    · exact ⟨_, (Option.some_injective _ h).symm⟩
  · exact Option.noConfusion h

theorem grpAgg_shape (nl : String) (columns : List String) (c : Option String)
    (filt : Filter) (a : Agg) (h : grpAgg nl columns c filt = some a) :
    ∃ gf cf, a = ⟨"group_cost", groupPipeline filt gf cf⟩ := by
  unfold grpAgg at h
  cases hgb : detect_group_by nl <;> rw [hgb] at h <;> dsimp only at h
  · exact Option.noConfusion h
  · rename_i gb
    cases hgf : groupFieldFor columns gb <;> rw [hgf] at h <;>
      cases hcf : costField columns c <;> rw [hcf] at h <;>
      first
        | exact Option.noConfusion h
        | exact ⟨_, _, (Option.some_injective _ h).symm⟩

theorem topAgg_shape (nl : String) (columns : List String) (c : Option String)
    (filt : Filter) (a : Agg) (h : topAgg nl columns c filt = some a) :
    ∃ cf n, a = ⟨"top", topPipeline filt cf n⟩ := by
  unfold topAgg at h
  cases htn : detect_top_n nl <;> rw [htn] at h <;> dsimp only at h
  · exact Option.noConfusion h
  · split at h
    · exact Option.noConfusion h
    · cases hcf : costField columns c <;> rw [hcf] at h
      · exact Option.noConfusion h
      · exact ⟨_, _, (Option.some_injective _ h).symm⟩

theorem aggOf_shapes (nl : String) (columns : List String) (c : Option String)
    (filt : Filter) (a : Agg) (h : aggOf nl columns c filt = some a) :
    (∃ cf, a = ⟨"sum", sumPipeline filt cf⟩) ∨
    (∃ gf cf, a = ⟨"group_cost", groupPipeline filt gf cf⟩) ∨
    (∃ cf n, a = ⟨"top", topPipeline filt cf n⟩) := by
  unfold aggOf at h
  cases hs : sumAgg nl columns c filt <;> rw [hs] at h <;> dsimp only at h
  case some a' =>
    obtain rfl : a' = a := Option.some_injective _ h
    exact Or.inl (sumAgg_shape _ _ _ _ _ hs)
  case none =>
    cases hg : grpAgg nl columns c filt <;> rw [hg] at h <;> dsimp only at h
    case some a' =>
      obtain rfl : a' = a := Option.some_injective _ h
      exact Or.inr (Or.inl (grpAgg_shape _ _ _ _ _ hg))
    case none => exact Or.inr (Or.inr (topAgg_shape _ _ _ _ _ h))

/-- Claim C5 counterexample: the comparison phrase "ship date > 5" resolves
to the date column, so the extracted $gt predicate is merged by setdefault
into the very operator map that holds the TimeRange; the date field ends
up bound to $gte/$lt/$gt together. -/
theorem date_field_targeted_cex :
    build_query "this month, ship date > 5" ["Ship Date"] none none now2024 =
      .ok { filter := [("Ship Date",
              [("$gte", .dt ⟨2024, 3, 1, 0, 0, 0, 0⟩),
               ("$lt", .dt ⟨2024, 4, 1, 0, 0, 0, 0⟩),
               ("$gt", .num 5)])],
            limit := 100, is_count := false, agg := none } := by
  decide

/-- Claim C1: the translator is a pure, deterministic function of
(text, columns, dateFieldOverride, costFieldOverride, now); with the
clock value threaded as the explicit argument now, equal inputs give
equal QueryDescriptions, and no other state enters the translation. -/
theorem build_query_deterministic (t₁ t₂ : String) (c₁ c₂ : List String)
    (d₁ d₂ o₁ o₂ : Option String) (n₁ n₂ : DateTime)
    (ht : t₁ = t₂) (hc : c₁ = c₂) (hd : d₁ = d₂) (ho : o₁ = o₂) (hn : n₁ = n₂) :
    build_query t₁ c₁ d₁ o₁ n₁ = build_query t₂ c₂ d₂ o₂ n₂ := by
  subst ht; subst hc; subst hd; subst ho; subst hn; rfl

/-- Witness for C1 at a concrete input. -/
theorem build_query_deterministic_witness :
    build_query "delivered this month" ["Ship Date", "Status"] none none now2024 =
      build_query "delivered this month" ["Ship Date", "Status"] none none now2024 :=
  build_query_deterministic _ _ _ _ _ _ _ _ _ _ rfl rfl rfl rfl rfl

/-- Claim C6: a whole-word count signal makes the result a count query
with no aggregation plan, regardless of any sum, group-by or top-N
signals in the same text (Count has the highest priority and
short-circuits). -/
theorem count_priority (nl : String) (columns : List String) (d c : Option String)
    (now : DateTime) (q : Query)
    (h : build_query nl columns d c now = .ok q)
    (hcount : detect_count (pyStrip nl) = true) :
    q.is_count = true ∧ q.agg = none := by
  obtain ⟨f, -, hq⟩ := build_query_ok_elim nl columns d c now q h
  subst hq
  simp [chooseIntent, hcount]

/-- Witness for C6: a text carrying count, sum and top-N signals at
once. -/
theorem count_priority_witness :
    (⟨[], 100, true, none⟩ : Query).is_count = true ∧
    (⟨[], 100, true, none⟩ : Query).agg = none :=
  count_priority "how many shipments total top 5" ["Cost"] none none now2024
    ⟨[], 100, true, none⟩ (by decide) (by decide)

/-- Claim C7: with a sum signal but no cost-resolvable column and no cost
override (and no count signal), the intent downgrades to Default: no
aggregation, is_count false, the default limit, and no error. -/
theorem sum_downgrade_default (nl : String) (columns : List String)
    (d : Option String) (now : DateTime) (q : Query)
    (h : build_query nl columns d none now = .ok q)
    (hsum : detect_sum_request (pyStrip nl) = true)
    (hnc : detect_count (pyStrip nl) = false)
    (hcf : detect_cost_field columns = none) :
    q.is_count = false ∧ q.agg = none ∧ q.limit = 100 := by
  obtain ⟨f, -, hq⟩ := build_query_ok_elim nl columns d none now q h
  subst hq
  have hcost : costField columns none = none := by
    simp [costField, pyOrS, truthy, hcf]
  refine ⟨?_, ?_, chooseIntent_limit _ _ _ _⟩
  · simp [chooseIntent, hnc]
  · simp [chooseIntent, hnc, aggOf_none_of_no_cost _ _ _ _ hcost]

/-- Witness for C7: "total cost" against a schema with no cost-like
column. -/
theorem sum_downgrade_default_witness :
    (⟨[], 100, false, none⟩ : Query).is_count = false ∧
    (⟨[], 100, false, none⟩ : Query).agg = none ∧
    (⟨[], 100, false, none⟩ : Query).limit = 100 :=
  sum_downgrade_default "total cost" ["Status"] none now2024 ⟨[], 100, false, none⟩
    (by decide) (by decide) (by decide) (by decide)

/-- Claim C10: every QueryDescription build_query returns has limit
exactly 100, and a count result never carries an aggregation plan. -/
theorem limit_count_invariant (nl : String) (columns : List String)
    (d c : Option String) (now : DateTime) (q : Query)
    (h : build_query nl columns d c now = .ok q) :
    q.limit = 100 ∧ (q.is_count = true → q.agg = none) := by
  obtain ⟨f, -, hq⟩ := build_query_ok_elim nl columns d c now q h
  subst hq
  refine ⟨chooseIntent_limit _ _ _ _, ?_⟩
  unfold chooseIntent
  split
  · intro _; rfl
  · intro hic; cases hic

/-- Witness for C10 at a concrete input. -/
theorem limit_count_invariant_witness :
    (⟨[], 100, false, none⟩ : Query).limit = 100 ∧
    ((⟨[], 100, false, none⟩ : Query).is_count = true →
      (⟨[], 100, false, none⟩ : Query).agg = none) :=
  limit_count_invariant "hello" [] none none now2024 ⟨[], 100, false, none⟩ (by decide)

/-- Claim C2 amended: when the explicit between pattern matches but its
dates fail to parse, that rule is skipped and the later relative temporal
patterns ARE still tried: the result is exactly what the relative-date
branches produce (so a co-present month/year/week/last-N phrase still
yields its filter). -/
theorem between_failure_falls_through (nl : String) (columns : List String)
    (ov : Option String) (now : DateTime) (df : String) (d1 d2 : ℕ × ℕ × ℕ)
    (hdf : resolvedDateField ov columns = some df)
    (hb : findBetween nl.data = some (d1, d2))
    (hp : parseYMD d1 = none ∨ parseYMD d2 = none) :
    parse_date_specifics nl columns ov now =
      relativeDateFilter nl (pyLower nl) df now := by
  simp only [parse_date_specifics]
  rw [hdf, hb]
  dsimp only
  rcases hp with hp | hp
  · rw [hp]
  · cases h1 : parseYMD d1
    · rfl
    · rw [hp]

/-- Witness for C2 amended: an unparseable between range followed by a
this-year phrase resolves through the relative branches. -/
theorem between_failure_falls_through_witness :
    parse_date_specifics "between 2024-13-05 and 2024-13-06 this year"
        ["Ship Date"] none now2024 =
      relativeDateFilter "between 2024-13-05 and 2024-13-06 this year"
        (pyLower "between 2024-13-05 and 2024-13-06 this year") "Ship Date" now2024 :=
  between_failure_falls_through _ _ _ _ _ (2024, 13, 5) (2024, 13, 6)
    (by decide) (by decide) (Or.inl (by decide))

theorem applyCmps_ok (columns : List String) (c : Option String) (ms : List Cmp) :
    ∀ f : Filter, (∀ m ∈ ms, cmpOk columns c m = true) →
      okB (List.foldlM (applyCmp1 columns c) f ms) = true := by
  induction ms with
  | nil => intro f _; rfl
  | cons m rest ih =>
    intro f hall
    have hm : cmpOk columns c m = true := hall m (List.mem_cons_self _ _)
    rw [List.foldlM_cons]
    have hrest : ∀ x ∈ rest, cmpOk columns c x = true :=
      fun x hx => hall x (List.mem_cons_of_mem _ hx)
    unfold applyCmp1
    cases hcol : cmpCol columns c m.field with
    | none => exact ih f hrest
    | some col =>
      unfold cmpOk at hm
      rw [hcol] at hm
      cases hpf : parseFloat (stripCommas m.num) with
      | none => rw [hpf] at hm; cases hm
      | some v => exact ih _ hrest

theorem assembleFilter_ok (nl : String) (columns : List String)
    (d c : Option String) (now : DateTime)
    (hdate : okB (parse_date_specifics nl columns d now) = true)
    (hnums : ∀ m ∈ findCmps nl.data, cmpOk columns c m = true) :
    okB (assembleFilter nl columns d c now) = true := by
  unfold assembleFilter
  cases hp : parse_date_specifics nl columns d now with
  | error e => rw [hp] at hdate; cases hdate
  | ok f0 => exact applyCmps_ok columns c _ _ hnums

/-- Claim C3 amended: build_query returns normally whenever the temporal
resolution does not overflow datetime bounds and every extracted numeric
comparison either fails field resolution (and is silently dropped) or has
a parseable value; a resolvable field with an unparseable value instead
raises (see the counterexample). -/
theorem build_query_ok_of_parsable (nl : String) (columns : List String)
    (d c : Option String) (now : DateTime)
    (hdate : okB (parse_date_specifics (pyStrip nl) columns d now) = true)
    (hnums : ∀ m ∈ findCmps (pyStrip nl).data, cmpOk columns c m = true) :
    okB (build_query nl columns d c now) = true := by
  have h := assembleFilter_ok (pyStrip nl) columns d c now hdate hnums
  simp only [build_query]
  cases hA : assembleFilter (pyStrip nl) columns d c now with
  | error e => rw [hA] at h; cases h
  | ok f => rfl

/-- Witness for C3 amended at a parseable comparison. -/
theorem build_query_ok_of_parsable_witness :
    okB (build_query "cost > 100" ["Cost"] none none now2024) = true :=
  build_query_ok_of_parsable "cost > 100" ["Cost"] none none now2024
    (by decide) (by decide)

/-- Claim C4 amended: in every produced aggregation, the Sum and GroupBy
pipelines always start with a match stage on the assembled filter (the
empty filter giving the match-all stage); the TopN pipeline starts with
that match stage only when the filter is nonempty, and contains no match
stage at all when the filter is empty. -/
theorem agg_first_stage (nl : String) (columns : List String) (d c : Option String)
    (now : DateTime) (q : Query) (a : Agg)
    (h : build_query nl columns d c now = .ok q) (ha : q.agg = some a) :
    ((a.type = "sum" ∨ a.type = "group_cost") →
        a.pipeline.head? = some (.smatch q.filter)) ∧
    (a.type = "top" → q.filter ≠ [] →
        a.pipeline.head? = some (.smatch q.filter)) ∧
    (a.type = "top" → q.filter = [] →
        ∀ s ∈ a.pipeline, stageIsMatch s = false) := by
  obtain ⟨f, -, hq⟩ := build_query_ok_elim nl columns d c now q h
  subst hq
  rw [chooseIntent_filter]
  unfold chooseIntent at ha
  by_cases hdc : detect_count (pyStrip nl) = true
  · rw [if_pos hdc] at ha
    exact Option.noConfusion ha
  · rw [if_neg hdc] at ha
    dsimp only at ha
    rcases aggOf_shapes _ _ _ _ _ ha with ⟨cf, rfl⟩ | ⟨gf, cf, rfl⟩ | ⟨cf, n, rfl⟩
    · refine ⟨fun _ => rfl, fun htop => by simp at htop, fun htop => by simp at htop⟩
    · refine ⟨fun _ => rfl, fun htop => by simp at htop, fun htop => by simp at htop⟩
    · refine ⟨?_, ?_, ?_⟩
      · intro hty
        rcases hty with hty | hty <;> simp at hty
      · intro _ hne
        cases f with
        | nil => exact absurd rfl hne
        | cons x xs => rfl
      · intro _ hnil
        subst hnil
        intro s hs
        simp only [topPipeline, List.isEmpty_nil, if_true, List.nil_append,
          List.mem_cons, List.not_mem_nil, or_false] at hs
        rcases hs with rfl | rfl | rfl | rfl <;> rfl

/-- Witness for C4 amended at a sum aggregation. -/
theorem agg_first_stage_witness :
    (((⟨"sum", [.smatch [], .sgroupSum "Cost"]⟩ : Agg).type = "sum" ∨
        (⟨"sum", [.smatch [], .sgroupSum "Cost"]⟩ : Agg).type = "group_cost") →
      (⟨"sum", [.smatch [], .sgroupSum "Cost"]⟩ : Agg).pipeline.head? =
        some (.smatch (⟨[], 100, false,
          some ⟨"sum", [.smatch [], .sgroupSum "Cost"]⟩⟩ : Query).filter)) ∧
    ((⟨"sum", [.smatch [], .sgroupSum "Cost"]⟩ : Agg).type = "top" →
      (⟨[], 100, false, some ⟨"sum", [.smatch [], .sgroupSum "Cost"]⟩⟩ : Query).filter ≠ [] →
      (⟨"sum", [.smatch [], .sgroupSum "Cost"]⟩ : Agg).pipeline.head? =
        some (.smatch (⟨[], 100, false,
          some ⟨"sum", [.smatch [], .sgroupSum "Cost"]⟩⟩ : Query).filter)) ∧
    ((⟨"sum", [.smatch [], .sgroupSum "Cost"]⟩ : Agg).type = "top" →
      (⟨[], 100, false, some ⟨"sum", [.smatch [], .sgroupSum "Cost"]⟩⟩ : Query).filter = [] →
      ∀ s ∈ (⟨"sum", [.smatch [], .sgroupSum "Cost"]⟩ : Agg).pipeline,
        stageIsMatch s = false) :=
  agg_first_stage "total" ["Cost"] none none now2024
    ⟨[], 100, false, some ⟨"sum", [.smatch [], .sgroupSum "Cost"]⟩⟩
    ⟨"sum", [.smatch [], .sgroupSum "Cost"]⟩ (by decide) (by decide)


theorem dictLookup_dictSet_ne {α : Type} (f : List (String × α)) (k k' : String)
    (v : α) (h : ¬ k = k') : dictLookup (dictSet f k v) k' = dictLookup f k' := by
  induction f with
  | nil => simp [dictSet, dictLookup, h]
  | cons p rest ih =>
    obtain ⟨pk, pv⟩ := p
    unfold dictSet
    by_cases hpk : pk = k
    · subst hpk
      rw [if_pos rfl]
      unfold dictLookup
      rw [if_neg h, if_neg h]
    · rw [if_neg hpk]
      unfold dictLookup
      by_cases hk2 : pk = k'
      · rw [if_pos hk2, if_pos hk2]
      · rw [if_neg hk2, if_neg hk2]
        exact ih

theorem dictLookup_dictSetDefault_ne (f : Filter) (k opk : String) (v : MVal)
    (k' : String) (h : ¬ k = k') :
    dictLookup (dictSetDefault f k opk v) k' = dictLookup f k' := by
  induction f with
  | nil => simp [dictSetDefault, dictLookup, h]
  | cons p rest ih =>
    obtain ⟨pk, pv⟩ := p
    unfold dictSetDefault
    by_cases hpk : pk = k
    · subst hpk
      rw [if_pos rfl]
      unfold dictLookup
      rw [if_neg h, if_neg h]
    · rw [if_neg hpk]
      unfold dictLookup
      by_cases hk2 : pk = k'
      · rw [if_pos hk2, if_pos hk2]
      · rw [if_neg hk2, if_neg hk2]
        exact ih

theorem applyFrom_preserve (nl : String) (columns : List String) (f : Filter)
    (df : String)
    (h : ¬ truthy (find_field columns ["origin", "from", "location"]) = some df) :
    dictLookup (applyFrom nl columns f) df = dictLookup f df := by
  unfold applyFrom
  cases m_from nl.data with
  | none => rfl
  | some cap =>
    cases hf : truthy (find_field columns ["origin", "from", "location"]) with
    | none => rfl
    | some fld =>
      dsimp only
      exact dictLookup_dictSet_ne f fld df _ (fun he => h (hf.trans (by rw [he])))

theorem applyTo_preserve (nl : String) (columns : List String) (f : Filter)
    (df : String)
    (h : ¬ truthy (find_field columns ["destination", "to", "to company", "to id"]) = some df) :
    dictLookup (applyTo nl columns f) df = dictLookup f df := by
  unfold applyTo
  cases m_to nl.data with
  | none => rfl
  | some cap =>
    cases hf : truthy (find_field columns ["destination", "to", "to company", "to id"]) with
    | none => rfl
    | some fld =>
      dsimp only
      exact dictLookup_dictSet_ne f fld df _ (fun he => h (hf.trans (by rw [he])))

theorem applyStatus_preserve (nl : String) (columns : List String) (f : Filter)
    (df : String)
    (h : ¬ truthy (detect_status_field columns) = some df) :
    dictLookup (applyStatus nl columns f) df = dictLookup f df := by
  unfold applyStatus
  dsimp only
  split
  · rfl
  · cases hf : truthy (detect_status_field columns) with
    | none => rfl
    | some sf =>
      dsimp only
      exact dictLookup_dictSet_ne f sf df _ (fun he => h (hf.trans (by rw [he])))

theorem applyCmps_preserve (columns : List String) (c : Option String)
    (df : String) (ms : List Cmp) :
    ∀ f f' : Filter,
      (∀ m ∈ ms, ¬ cmpCol columns c m.field = some df) →
      List.foldlM (applyCmp1 columns c) f ms = .ok f' →
      dictLookup f' df = dictLookup f df := by
  induction ms with
  | nil =>
    intro f f' _ hfold
    injection hfold with hfold
    rw [hfold]
  | cons m rest ih =>
    intro f f' hall hfold
    have hm := hall m (List.mem_cons_self _ _)
    have hrest : ∀ x ∈ rest, ¬ cmpCol columns c x.field = some df :=
      fun x hx => hall x (List.mem_cons_of_mem _ hx)
    rw [List.foldlM_cons] at hfold
    unfold applyCmp1 at hfold
    cases hcol : cmpCol columns c m.field with
    | none =>
      rw [hcol] at hfold
      exact ih f f' hrest hfold
    | some col =>
      rw [hcol] at hfold
      cases hpf : parseFloat (stripCommas m.num) with
      | none => rw [hpf] at hfold; cases hfold
      | some v =>
        rw [hpf] at hfold
        have hne : ¬ col = df := fun he => (hcol ▸ hm) (by rw [he])
        rw [ih _ f' hrest hfold]
        exact dictLookup_dictSetDefault_ne f col (opKeyOf m.op) (MVal.num v) df hne

/-- Claim C5 amended: the TimeRange is the sole predicate bound to the
resolved date field whenever no other extraction rule resolves to that
field: under those conditions the final filter still maps the date field
to exactly the temporal predicate.  Predicate extraction CAN target the
date field (see the counterexample), in which case comparisons merge into
the temporal operator map and location/status predicates overwrite it. -/
theorem timerange_sole_binding (nl : String) (columns : List String)
    (d c : Option String) (now : DateTime) (q : Query) (df : String) (pred : Pred)
    (h : build_query nl columns d c now = .ok q)
    (hdate : parse_date_specifics (pyStrip nl) columns d now = .ok [(df, pred)])
    (hfrom : ¬ truthy (find_field columns ["origin", "from", "location"]) = some df)
    (hto : ¬ truthy (find_field columns ["destination", "to", "to company", "to id"]) = some df)
    (hst : ¬ truthy (detect_status_field columns) = some df)
    (hcmp : ∀ m ∈ findCmps (pyStrip nl).data, ¬ cmpCol columns c m.field = some df) :
    dictLookup q.filter df = some pred := by
  obtain ⟨f, hA, hq⟩ := build_query_ok_elim nl columns d c now q h
  subst hq
  rw [chooseIntent_filter]
  unfold assembleFilter at hA
  rw [hdate] at hA
  have h1 := applyCmps_preserve columns c df (findCmps (pyStrip nl).data) _ f hcmp hA
  rw [h1, applyStatus_preserve _ _ _ _ hst, applyTo_preserve _ _ _ _ hto,
      applyFrom_preserve _ _ _ _ hfrom]
  unfold dictLookup
  rw [if_pos rfl]

/-- Witness for C5 amended: a temporal phrase plus a cost comparison that
resolves away from the date field. -/
theorem timerange_sole_binding_witness :
    dictLookup (⟨[("Ship Date",
        [("$gte", .dt ⟨2024, 3, 1, 0, 0, 0, 0⟩),
         ("$lt", .dt ⟨2024, 4, 1, 0, 0, 0, 0⟩)]),
      ("Cost", [("$gt", .num 5)])], 100, false, none⟩ : Query).filter "Ship Date" =
      some [("$gte", .dt ⟨2024, 3, 1, 0, 0, 0, 0⟩),
            ("$lt", .dt ⟨2024, 4, 1, 0, 0, 0, 0⟩)] :=
  timerange_sole_binding "this month cost > 5" ["Ship Date", "Cost"] none none now2024
    ⟨[("Ship Date",
        [("$gte", .dt ⟨2024, 3, 1, 0, 0, 0, 0⟩),
         ("$lt", .dt ⟨2024, 4, 1, 0, 0, 0, 0⟩)]),
      ("Cost", [("$gt", .num 5)])], 100, false, none⟩
    "Ship Date"
    [("$gte", .dt ⟨2024, 3, 1, 0, 0, 0, 0⟩), ("$lt", .dt ⟨2024, 4, 1, 0, 0, 0, 0⟩)]
    (by decide) (by decide) (by decide) (by decide) (by decide) (by decide)

end NLQ
